import Mathlib

/-!
Verification of the AgriAI backend (Express/MongoDB) against its
natural-language specification.  Each section below shallowly embeds the
relevant JavaScript source (route handlers, Mongoose model methods and
hooks, middleware) as executable Lean definitions, and the theorems at the
end of the file settle the spec claims against those definitions.

Conventions: JavaScript numbers are embedded as exact rationals, epoch
timestamps (milliseconds) as integers, and fallible or effectful steps
(third-party API calls, the classifier, the generative-AI client,
randomness) as explicit parameters describing their outcome.
-/

/-! ### Error handler middleware (backend/middleware/errorHandler.js) -/

/-- A JavaScript error code: either a numeric code (Mongo duplicate key
uses 11000) or a string code (multer uses codes like LIMIT_FILE_SIZE). -/
inductive JsCode where
  | num (n : Int)
  | str (s : String)
deriving DecidableEq

/-- The fields of a JavaScript error object that errorHandler.js reads:
name, message, optional code, the keys of keyValue (duplicate-key errors),
the messages of the errors object (validation errors), and an optional
statusCode. -/
structure JsError where
  name : String
  message : String
  code : Option JsCode
  keyValueKeys : List String
  validationMessages : List String
  statusCode : Option Nat
deriving DecidableEq

/-- The JSON error response: HTTP status, success flag, message. -/
structure ErrResponse where
  statusCode : Nat
  success : Bool
  message : String
deriving DecidableEq

/-- Embeds field.charAt(0).toUpperCase() + field.slice(1). -/
def capitalizeFirst (s : String) : String :=
  match s.data with
  | [] => ""
  | c :: cs => String.mk (c.toUpper :: cs)

/-- Embeds errorHandler from backend/middleware/errorHandler.js.  The JS
code starts from the spread error (carrying statusCode) plus err.message
and lets each recognised kind overwrite the pair (statusCode, message);
finally statusCode falls back to 500 and message to Internal Server Error
under JavaScript truthiness (0 and the empty string are falsy). -/
def errorHandler (err : JsError) : ErrResponse :=
  let e0 : Option Nat × String := (err.statusCode, err.message)
  let e1 := if err.name = "CastError" then
      ((some 404, "Resource not found") : Option Nat × String) else e0
  let e2 := if err.code = some (JsCode.num 11000) then
      ((some 400, capitalizeFirst (err.keyValueKeys.headD "") ++ " already exists") :
        Option Nat × String) else e1
  let e3 := if err.name = "ValidationError" then
      ((some 400, String.intercalate ", " err.validationMessages) : Option Nat × String) else e2
  let e4 := if err.name = "JsonWebTokenError" then
      ((some 401, "Invalid token") : Option Nat × String) else e3
  let e5 := if err.name = "TokenExpiredError" then
      ((some 401, "Token expired") : Option Nat × String) else e4
  let e6 := if err.name = "MulterError" then
      ((some 400,
        if err.code = some (JsCode.str "LIMIT_FILE_SIZE") then "File too large"
        else if err.code = some (JsCode.str "LIMIT_FILE_COUNT") then "Too many files"
        else if err.code = some (JsCode.str "LIMIT_UNEXPECTED_FILE") then "Unexpected file field"
        else "File upload error") : Option Nat × String) else e5
  let statusCode := match e6.1 with
    | some s => if s = 0 then 500 else s
    | none => 500
  let message := if e6.2 = "" then "Internal Server Error" else e6.2
  { statusCode := statusCode, success := false, message := message }

/-! ### ImageAnalysis.shareWith (backend/models/ImageAnalysis.js) -/

/-- Embeds the JavaScript spread of a Set built from a list:
[...new Set(list)] keeps the first occurrence of each element, in order. -/
def dedupFirst {α : Type} [DecidableEq α] : List α → List α
  | [] => []
  | x :: xs => x :: (dedupFirst xs).filter (fun a => a ≠ x)

/-- The status enum of imageAnalysisSchema.status: pending, processing,
completed, failed. -/
inductive AnalysisStatus where
  | pending
  | processing
  | completed
  | failed
deriving DecidableEq

/-- The fields of an ImageAnalysis document that the claims touch.  The
analysis payload produced by the classifier is kept opaque, and the
location/device metadata, which no claim mentions, is omitted. -/
structure ImageAnalysisRec where
  user : String
  originalImagePath : String
  originalImageUrl : String
  status : AnalysisStatus
  analysis : Option String
  processingTime : Option ℚ
  errorMessage : Option String
  isPublic : Bool
  sharedWith : List String
deriving DecidableEq

/-- Embeds imageAnalysisSchema.methods.shareWith,
this.sharedWith = [...new Set([...this.sharedWith, ...userIds])], at the
stored-value level.  On a hydrated document this.sharedWith holds
ObjectId objects while userIds holds the request-body strings; the Set
compares with SameValueZero, under which distinct ObjectId instances
merge neither with each other nor with strings, so only the incoming
strings are deduplicated among themselves (first occurrence kept, in
order) before Mongoose casts them onto the end of the array.  An id
already stored is therefore appended again, not merged. -/
def ImageAnalysisRec.shareWith (r : ImageAnalysisRec) (userIds : List String) :
    ImageAnalysisRec :=
  { r with sharedWith := r.sharedWith ++ dedupFirst userIds }

/-! ### Weather cache (GET /api/weather/current, backend/routes/weather.js)
and the WeatherData model (backend/models/WeatherData.js) -/

/-- The fields of the third-party (OpenWeatherMap) current-weather payload
that the handler reads. -/
structure ApiWeather where
  name : String
  country : String
  temp : ℚ
  feelsLike : ℚ
  humidity : ℚ
  pressure : ℚ
  windSpeed : ℚ
  windDeg : ℚ
  visibility : ℚ
  uvi : Option ℚ
  weatherMain : String
  weatherDescription : String
  weatherIcon : String
  sunrise : ℤ
  sunset : ℤ
deriving DecidableEq

/-- A WeatherData document (backend/models/WeatherData.js), with epoch
timestamps in milliseconds. -/
structure WeatherDoc where
  user : String
  latitude : ℚ
  longitude : ℚ
  location : String
  temperature : ℚ
  feelsLike : ℚ
  humidity : ℚ
  pressure : ℚ
  windSpeed : ℚ
  windDirection : ℚ
  visibility : ℚ
  uvIndex : Option ℚ
  conditions : String
  description : String
  icon : String
  sunrise : ℤ
  sunset : ℤ
  timestamp : ℤ
deriving DecidableEq

/-- Embeds the WeatherData.create call of the /current handler: builds the
stored document from the API payload (weatherData.uvi || null maps a
missing or zero uvi to null under JS truthiness; sunrise and sunset are
seconds converted to milliseconds). -/
def mkWeatherRecord (userId : String) (lat lon : ℚ) (loc : Option String)
    (api : ApiWeather) (now : ℤ) : WeatherDoc :=
  { user := userId
    latitude := lat
    longitude := lon
    location := loc.getD (api.name ++ ", " ++ api.country)
    temperature := api.temp
    feelsLike := api.feelsLike
    humidity := api.humidity
    pressure := api.pressure
    windSpeed := api.windSpeed
    windDirection := api.windDeg
    visibility := api.visibility
    uvIndex := match api.uvi with
      | some u => if u = 0 then none else some u
      | none => none
    conditions := api.weatherMain
    description := api.weatherDescription
    icon := api.weatherIcon
    sunrise := api.sunrise * 1000
    sunset := api.sunset * 1000
    timestamp := now }

/-- One step of scanning for the newest document: keep whichever of the
current best and the next document has the larger timestamp. -/
def newestStep (best : Option WeatherDoc) (d : WeatherDoc) : Option WeatherDoc :=
  match best with
  | none => some d
  | some b => if b.timestamp < d.timestamp then some d else some b

/-- Embeds WeatherData.findOne(filter).sort(timestamp descending): among
the documents satisfying the filter, return one of maximal timestamp
(the first such, matching MongoDB returning the head of the sorted set). -/
def findNewestMatch (docs : List WeatherDoc) (p : WeatherDoc → Bool) :
    Option WeatherDoc :=
  (docs.filter p).foldl newestStep none

/-- The Mongo filter of the /current cache lookup: exact latitude and
longitude, and timestamp at least cacheExpiry (the $gte bound). -/
def weatherCacheFilter (lat lon : ℚ) (cacheExpiry : ℤ) (d : WeatherDoc) : Bool :=
  decide (d.latitude = lat ∧ d.longitude = lon ∧ cacheExpiry ≤ d.timestamp)

/-- The JSON body of a successful /current response: the weather document
and whether it came from the cache or the API. -/
structure CurrentWeatherResp where
  success : Bool
  source : String
  weather : WeatherDoc
deriving DecidableEq

/-- The full outcome of the /current handler: the response, the stored
documents after the request, and whether the third-party API was called. -/
structure CurrentWeatherOutcome where
  resp : CurrentWeatherResp
  docsAfter : List WeatherDoc
  apiCalled : Bool
deriving DecidableEq

/-- Embeds the GET /api/weather/current handler (latitude and longitude
present): compute cacheExpiry = now - 10 minutes, look up the newest
fresh cached document for the coordinate pair; on a hit answer from the
cache, otherwise call the API, store a new document and answer with it. -/
def getCurrentWeather (now : ℤ) (userId : String) (lat lon : ℚ)
    (loc : Option String) (docs : List WeatherDoc) (api : ApiWeather) :
    CurrentWeatherOutcome :=
  let cacheExpiry := now - 10 * 60 * 1000
  match findNewestMatch docs (weatherCacheFilter lat lon cacheExpiry) with
  | some cached =>
      { resp := { success := true, source := "cache", weather := cached }
        docsAfter := docs
        apiCalled := false }
  | none =>
      let weatherRecord := mkWeatherRecord userId lat lon loc api now
      { resp := { success := true, source := "api", weather := weatherRecord }
        docsAfter := docs ++ [weatherRecord]
        apiCalled := true }

/-! ### Image upload and background classification (backend/routes/images.js)
with the analyzeImageWithAI classifier treated as a black box -/

/-- The outcome of analyzeImageWithAI on an uploaded file: the analysis
payload together with the measured processing time in seconds, or a
thrown error carrying a message. -/
inductive ClassifierOutcome where
  | ok (analysis : String) (processingTime : ℚ)
  | error (msg : String)
deriving DecidableEq

/-- Embeds ImageAnalysis.create of the upload route: the new document
carries the file info, and the schema defaults give status pending, no
analysis, no processingTime, no errorMessage, isPublic false and an empty
sharedWith list. -/
def createImageAnalysis (userId filePath fileUrl : String) : ImageAnalysisRec :=
  { user := userId
    originalImagePath := filePath
    originalImageUrl := fileUrl
    status := AnalysisStatus.pending
    analysis := none
    processingTime := none
    errorMessage := none
    isPublic := false
    sharedWith := [] }

/-- Embeds the setImmediate background task of POST /api/images/upload:
set status processing and save; run the classifier; on success save
status completed together with the analysis and processing time; on a
thrown error save status failed together with the error message.  The
result is the sequence of saved document states, in order. -/
def backgroundAnalysisStates (r : ImageAnalysisRec) (out : ClassifierOutcome) :
    List ImageAnalysisRec :=
  let r1 := { r with status := AnalysisStatus.processing }
  match out with
  | ClassifierOutcome.ok a t =>
      let r2 := { r1 with
        status := AnalysisStatus.completed
        analysis := some a
        processingTime := some t }
      [r1, r2]
  | ClassifierOutcome.error m =>
      let r2 := { r1 with
        status := AnalysisStatus.failed
        errorMessage := some m }
      [r1, r2]

/-- The status transitions the pipeline is allowed to make. -/
def allowedTransition : AnalysisStatus → AnalysisStatus → Bool
  | AnalysisStatus.pending, AnalysisStatus.processing => true
  | AnalysisStatus.processing, AnalysisStatus.completed => true
  | AnalysisStatus.processing, AnalysisStatus.failed => true
  | _, _ => false

/-- The immediate JSON response of POST /api/images/upload: success flag,
message, the created document echoed in data.analysis, and the literal
data.status string. -/
structure UploadResponse where
  success : Bool
  message : String
  dataAnalysis : ImageAnalysisRec
  dataStatus : String
deriving DecidableEq

/-- The outcome of the upload route for a request carrying a valid image
file: the created (saved) document, the response sent immediately, and
the scheduled background task, which runs only after the response and
maps the classifier outcome to the later sequence of saved states. -/
structure UploadOutcome where
  createdRecord : ImageAnalysisRec
  response : UploadResponse
  background : ClassifierOutcome → List ImageAnalysisRec

/-- Embeds POST /api/images/upload for a request with a file: create the
analysis document (schema defaults give status pending), schedule the
background classification with setImmediate, and answer immediately with
success true and data.status the literal string processing. -/
def uploadHandler (userId filePath fileUrl : String) : UploadOutcome :=
  let imageAnalysis := createImageAnalysis userId filePath fileUrl
  { createdRecord := imageAnalysis
    response :=
      { success := true
        message := "Image uploaded successfully, analysis in progress"
        dataAnalysis := imageAnalysis
        dataStatus := "processing" }
    background := fun out => backgroundAnalysisStates imageAnalysis out }

/-! ### Request-body validation middleware (backend/middleware/validation.js) -/

/-- The outcome of running a middleware-wrapped route: either the
middleware answered directly (status, success flag, message) or the route
handler ran and produced a result. -/
inductive MwOutcome (R : Type) where
  | response (status : Nat) (success : Bool) (message : String)
  | handled (result : R)
deriving DecidableEq

/-- Embeds the validate(schema) middleware generator: run the named Joi
schema on req.body; on error answer 400 with the comma-joined detail
messages, otherwise replace req.body with the validated value and run the
next handler.  The schema is passed as a function from a body to Joi's
(error, value) pair. -/
def validate {B R : Type} (schemaValidate : B → Option (List String) × B)
    (handler : B → R) (body : B) : MwOutcome R :=
  match schemaValidate body with
  | (some details, _) =>
      MwOutcome.response 400 false (String.intercalate ", " details)
  | (none, value) => MwOutcome.handled (handler value)

/-- The shape of a chatMessage request body before validation: each field
may be absent. -/
structure ChatMessageBody where
  message : Option String
  sessionId : Option String
  language : Option String
deriving DecidableEq

/-- Embeds the chatMessage Joi schema: message is a required string of
length 1 to 1000, sessionId an optional string, language a two-letter
string defaulting to en.  Joi aborts at the first failing rule, so the
details list has a single message. -/
def joiChatMessage (b : ChatMessageBody) : Option (List String) × ChatMessageBody :=
  match b.message with
  | none => (some ["\"message\" is required"], b)
  | some m =>
      if m = "" then (some ["\"message\" is not allowed to be empty"], b)
      else if 1000 < m.length then
        (some ["\"message\" length must be less than or equal to 1000 characters long"], b)
      else
        match b.language with
        | none => (none, { b with language := some "en" })
        | some lang =>
            if lang.length = 2 then (none, b)
            else (some ["\"language\" length must be 2 characters long"], b)

/-! ### Forecast daily summaries (GET /api/weather/forecast) -/

/-- One mapped 3-hour forecast interval (forecastData entry).  The date
key stands for item.timestamp.toDateString(), the string the grouping
object is keyed by. -/
structure ForecastItem where
  dateKey : String
  temperature : ℚ
  feelsLike : ℚ
  humidity : ℚ
  pressure : ℚ
  windSpeed : ℚ
  windDirection : ℚ
  conditions : String
  description : String
  icon : String
  precipitation : ℚ
  probability : ℚ
deriving DecidableEq

/-- Embeds adding one forecast item to the dailyForecast object: push it
onto the group of its date key, or start a new group at the end
(JavaScript object keys keep insertion order). -/
def pushItem : List (String × List ForecastItem) → ForecastItem →
    List (String × List ForecastItem)
  | [], it => [(it.dateKey, [it])]
  | (k, xs) :: rest, it =>
      if k = it.dateKey then (k, xs ++ [it]) :: rest
      else (k, xs) :: pushItem rest it

/-- Embeds the grouping loop of the forecast route over forecastData. -/
def groupByDay (items : List ForecastItem) :
    List (String × List ForecastItem) :=
  items.foldl pushItem []

/-- Looking a date key up in the grouping object. -/
def lookupDay : List (String × List ForecastItem) → String →
    Option (List ForecastItem)
  | [], _ => none
  | (k, xs) :: rest, q => if k = q then some xs else lookupDay rest q

/-- Embeds Math.min over a spread non-empty list of numbers (the route
only applies it to a day's temperatures, never empty). -/
def jsMathMin : List ℚ → ℚ
  | [] => 0
  | x :: xs => xs.foldl min x

/-- Embeds Math.max over a spread non-empty list of numbers. -/
def jsMathMax : List ℚ → ℚ
  | [] => 0
  | x :: xs => xs.foldl max x

/-- One day's summary of the forecast response; date is represented by
the day key of the group. -/
structure DailySummary where
  date : String
  minTemp : ℚ
  maxTemp : ℚ
  avgTemp : ℚ
  humidity : ℚ
  conditions : String
  description : String
  icon : String
  precipitation : ℚ
  hourly : List ForecastItem
deriving DecidableEq

/-- A placeholder for the JS day.items[0] access, which the route never
performs on an empty group. -/
def emptyItem : ForecastItem := ⟨"", 0, 0, 0, 0, 0, 0, "", "", "", 0, 0⟩

/-- Embeds the per-day summary of the forecast route: min, max and mean
of the day's temperatures, the first reading's humidity, conditions,
description and icon, the summed precipitation, and the day's items. -/
def daySummary (g : String × List ForecastItem) : DailySummary :=
  let temps := g.2.map (fun it => it.temperature)
  { date := g.1
    minTemp := jsMathMin temps
    maxTemp := jsMathMax temps
    avgTemp := temps.foldl (fun a b => a + b) 0 / (temps.length : ℚ)
    humidity := (g.2.headD emptyItem).humidity
    conditions := (g.2.headD emptyItem).conditions
    description := (g.2.headD emptyItem).description
    icon := (g.2.headD emptyItem).icon
    precipitation := g.2.foldl (fun s it => s + it.precipitation) 0
    hourly := g.2 }

/-- Embeds the dailySummaries array of the forecast response. -/
def dailySummaries (items : List ForecastItem) : List DailySummary :=
  (groupByDay items).map daySummary

/-! ### Chatbot (backend/routes/chatbot.js and backend/models/ChatSession.js) -/

/-- A chat message subdocument: role, content and the metadata source and
model fields the route sets on assistant messages. -/
structure ChatMsg where
  role : String
  content : String
  metaSource : Option String
  metaModel : Option String
deriving DecidableEq

/-- A ChatSession document: the ordered messages, the title, the
messageCount maintained by the pre-save hook, and the session language
setting. -/
structure ChatSessionRec where
  messages : List ChatMsg
  title : String
  messageCount : Nat
  language : String
deriving DecidableEq

/-- Embeds ChatSession.create of the chat route: a fresh session with no
messages and the schema defaults title New Chat and messageCount 0. -/
def createChatSession (language : String) : ChatSessionRec :=
  { messages := [], title := "New Chat", messageCount := 0,
    language := language }

/-- Embeds the pre-save hook of chatSessionSchema: when the messages path
was modified, set messageCount to the number of messages and, while the
title is still New Chat and a first user message exists, derive the title
from its first five words, truncated to 20 characters plus an ellipsis.
The lastActivity touch, which no claim mentions, is omitted. -/
def chatSessionPreSave (modifiedMessages : Bool) (s : ChatSessionRec) :
    ChatSessionRec :=
  if modifiedMessages then
    let s1 := { s with messageCount := s.messages.length }
    if s1.title = "New Chat" ∧ 0 < s1.messages.length then
      match s1.messages.find? (fun m => m.role == "user") with
      | some m =>
          let words := String.intercalate " " ((m.content.splitOn " ").take 5)
          { s1 with title :=
            if 20 < words.length then (words.take 20) ++ "..." else words }
      | none => s1
    else s1
  else s

/-- One entry of the history passed to the generative-AI chat call. -/
structure GeminiTurn where
  role : String
  text : String
deriving DecidableEq

/-- Embeds the role mapping of the history construction: assistant maps
to model, every other stored role to user; parts carry the content. -/
def mapToGemini (m : ChatMsg) : GeminiTurn :=
  { role := if m.role = "assistant" then "model" else "user",
    text := m.content }

/-- Embeds Array.prototype.slice(-n): the last min(n, length) elements of
the array, in order. -/
def jsSliceLast {α : Type} (n : Nat) (l : List α) : List α :=
  l.drop (l.length - n)

/-- Embeds String.prototype.trim: strip whitespace from both ends. -/
def jsTrim (s : String) : String :=
  String.mk
    (((s.data.dropWhile Char.isWhitespace).reverse.dropWhile
      Char.isWhitespace).reverse)

/-- The system prompt of the chat route, parameterised by the request
language. -/
def systemPromptText (language : String) : String :=
  "You are an agricultural expert assistant. Provide helpful, accurate farming advice in "
    ++ language ++
    ". Be concise but informative (max 200 words). Focus on practical solutions that farmers can implement."

/-- The fixed two-entry exchange placed before the history in startChat. -/
def systemExchange (language : String) : List GeminiTurn :=
  [⟨"user", systemPromptText language⟩,
   ⟨"model", "Understood. I will provide practical farming advice."⟩]

/-- One category of the AGRICULTURAL_KNOWLEDGE fallback base: keywords
and canned responses. -/
structure KnowledgeCategory where
  keywords : List String
  responses : List String
deriving DecidableEq

/-- Embeds AGRICULTURAL_KNOWLEDGE with its five categories in insertion
order: soil health, pest control, water management, crop selection,
weather climate. -/
def AGRICULTURAL_KNOWLEDGE : List KnowledgeCategory :=
  [⟨["soil", "fertilizer", "nutrients", "ph", "compost", "manure"],
    ["Healthy soil should have a pH between 6.0-7.0 for most crops. Test your soil annually and add organic matter regularly.",
     "For nutrient deficiencies, consider balanced NPK fertilizers. Nitrogen for leaf growth, Phosphorus for roots, Potassium for overall health.",
     "Compost improves soil structure, water retention, and microbial activity. Apply 2-4 inches of compost annually.",
     "Crop rotation helps maintain soil health and reduces pest buildup. Rotate between different plant families each season."]⟩,
   ⟨["pest", "insect", "bug", "worm", "disease", "fungus", "bacteria"],
    ["Integrated Pest Management (IPM) combines cultural, biological, and chemical controls. Start with prevention and monitoring.",
     "Beneficial insects like ladybugs, lacewings, and parasitic wasps help control pests naturally. Plant flowers to attract them.",
     "For fungal diseases, ensure proper air circulation, avoid overhead watering, and apply copper-based fungicides if needed.",
     "Neem oil is effective against many pests and diseases. Mix 2 tablespoons per gallon of water and spray weekly."]⟩,
   ⟨["water", "irrigation", "drainage", "moisture", "drought", "flood"],
    ["Water deeply but infrequently to encourage deep root growth. Most crops need 1-2 inches of water per week.",
     "Drip irrigation saves water and reduces disease risk by keeping foliage dry. Install during dry periods.",
     "Mulching conserves moisture, suppresses weeds, and regulates soil temperature. Apply 2-4 inches around plants.",
     "Good drainage is crucial. Raised beds or contour planting can help prevent waterlogging in heavy soils."]⟩,
   ⟨["crop", "plant", "variety", "seed", "sowing", "planting", "harvest"],
    ["Choose crop varieties suited to your climate, soil type, and market demand. Check local growing calendars.",
     "Heirloom varieties offer unique flavors and genetic diversity, while hybrids provide uniformity and disease resistance.",
     "Direct seeding works for crops like beans, carrots, and lettuce. Transplants give a head start for tomatoes and peppers.",
     "Succession planting every 2-3 weeks ensures continuous harvest of crops like lettuce, radishes, and beans."]⟩,
   ⟨["weather", "climate", "season", "temperature", "rain", "frost"],
    ["Monitor weather forecasts regularly. Prepare for extreme conditions with protective covers or irrigation.",
     "Frost-sensitive crops need protection when temperatures drop below 32°F (0°C). Use row covers or cold frames.",
     "High temperatures above 90°F (32°C) can stress plants. Provide shade and increase watering frequency.",
     "Season extension techniques like greenhouses, cold frames, and row covers allow year-round production."]⟩]

/-- The default fallback answer when no category keyword matches. -/
def defaultFallback : String :=
  "I\x27m here to help with farming questions! You can ask me about soil health, pest control, water management, crop selection, or weather conditions. What would you like to know?"

/-- Embeds getFallbackResponse: lower-case the query, take the first
category one of whose keywords occurs in it, and pick a pseudo-random one
of its responses (the Math.random draw is passed in as the index rand,
reduced modulo the number of responses); with no match, answer the
default fallback. -/
def getFallbackResponse (rand : Nat) (query : String) : String :=
  let lowerQuery := query.toLower
  match AGRICULTURAL_KNOWLEDGE.find? (fun cat =>
      cat.keywords.any (fun kw => decide (kw.toList <:+: lowerQuery.toList))) with
  | some cat => cat.responses.getD (rand % cat.responses.length) ""
  | none => defaultFallback

/-- The outcome of the generative-AI call for one chat request: the
client is absent (no API key), the call succeeded with the reply text, or
the call threw. -/
inductive GeminiOutcome where
  | noClient
  | ok (text : String)
  | error (msg : String)
deriving DecidableEq

/-- The apology used when even the fallback reply came back blank. -/
def apologyText : String :=
  "I apologize, but I\x27m having trouble generating a response right now. Please try asking your question again."

/-- The result of POST /api/chatbot/chat on a found-or-created session:
the saved session, the reply sent back (also the one stored), the
response source, the history handed to startChat when the client was
available, and the messageCount echoed in the response. -/
structure ChatOutcome where
  sessionAfter : ChatSessionRec
  response : String
  responseSource : String
  historySent : Option (List GeminiTurn)
  messageCountResp : Nat
deriving DecidableEq

/-- Embeds the body of POST /api/chatbot/chat once the session is found
or created: build the history from the last ten stored messages before
anything is appended, push the trimmed user message, obtain the reply
(the client text when present and non-blank, otherwise the local
fallback, and the apology if even that is blank), push the assistant
message with its source metadata, and save through the pre-save hook.
message is the validated message, language the request language, rand the
Math.random draw of the fallback, gem the generative-AI outcome. -/
def chatHandler (session : ChatSessionRec) (message : String)
    (language : String) (rand : Nat) (gem : GeminiOutcome) : ChatOutcome :=
  let previousMessages := jsSliceLast 10 session.messages
  let history := previousMessages.map mapToGemini
  let userMsg : ChatMsg := ⟨"user", jsTrim message, none, none⟩
  let s1 := { session with messages := session.messages ++ [userMsg] }
  let attempt : String × String × Option (List GeminiTurn) :=
    match gem with
    | GeminiOutcome.ok t =>
        if t = "" ∨ jsTrim t = "" then
          (getFallbackResponse rand message, "local",
            some (systemExchange language ++ history))
        else (t, "gemini", some (systemExchange language ++ history))
    | GeminiOutcome.error _ =>
        (getFallbackResponse rand message, "local",
          some (systemExchange language ++ history))
    | GeminiOutcome.noClient =>
        (getFallbackResponse rand message, "local", none)
  let checked : String × String :=
    if attempt.1 = "" ∨ jsTrim attempt.1 = "" then (apologyText, "local")
    else (attempt.1, attempt.2.1)
  let botMsg : ChatMsg := ⟨"assistant", jsTrim checked.1, some checked.2,
    some (if checked.2 = "gemini" then "gemini-2.5-flash" else "local-knowledge")⟩
  let s2 := { s1 with messages := s1.messages ++ [botMsg] }
  let saved := chatSessionPreSave true s2
  { sessionAfter := saved
    response := jsTrim checked.1
    responseSource := checked.2
    historySent := attempt.2.2
    messageCountResp := saved.messages.length }

/-! ### Concrete sample values used by witnesses and counterexamples -/

/-- A fresh analysis record with no shares yet. -/
def sampleAnalysisRec : ImageAnalysisRec :=
  createImageAnalysis "u1" "/uploads/images/b.jpg" "/uploads/images/b.jpg"

/-- A sample forecast list: two intervals on day d1, one on day d2. -/
def sampleForecast : List ForecastItem :=
  [⟨"d1", 10, 9, 80, 1010, 3, 90, "Clouds", "few clouds", "02d", 1, 0⟩,
   ⟨"d1", 20, 19, 60, 1012, 4, 100, "Clear", "clear sky", "01d", 0, 0⟩,
   ⟨"d2", 15, 14, 70, 1011, 2, 80, "Rain", "light rain", "10d", 2, 0⟩]

/-- The summary of day d1 of the sample forecast. -/
def sampleSummary : DailySummary :=
  daySummary ("d1",
    [⟨"d1", 10, 9, 80, 1010, 3, 90, "Clouds", "few clouds", "02d", 1, 0⟩,
     ⟨"d1", 20, 19, 60, 1012, 4, 100, "Clear", "clear sky", "01d", 0, 0⟩])

/-- A sample chat session holding one earlier exchange. -/
def sampleSession : ChatSessionRec :=
  { messages := [⟨"user", "hi", none, none⟩,
      ⟨"assistant", "Hello, how can I help?", some "local", some "local-knowledge"⟩],
    title := "hi", messageCount := 2, language := "en" }

/-- A chatMessage body that passes validation, with language absent so
the schema default applies. -/
def chatBodyOk : ChatMessageBody :=
  { message := some "How do I improve my soil?", sessionId := none,
    language := none }

/-- A chatMessage body with the required message field missing. -/
def chatBodyBad : ChatMessageBody :=
  { message := none, sessionId := none, language := some "en" }

/-- A multer file-size error as produced by the upload middleware. -/
def multerSizeErr : JsError :=
  { name := "MulterError", message := "Field value too long",
    code := some (JsCode.str "LIMIT_FILE_SIZE"), keyValueKeys := [],
    validationMessages := [], statusCode := none }

/-- A Mongoose CastError (bad ObjectId). -/
def castErrExample : JsError :=
  { name := "CastError", message := "Cast to ObjectId failed",
    code := none, keyValueKeys := [], validationMessages := [],
    statusCode := none }

/-- A plain application error carrying its own statusCode. -/
def plainErrExample : JsError :=
  { name := "Error", message := "quota exceeded",
    code := none, keyValueKeys := [], validationMessages := [],
    statusCode := some 429 }

/-- A sample OpenWeatherMap current-weather payload. -/
def sampleApiWeather : ApiWeather :=
  { name := "Nairobi", country := "KE", temp := 25, feelsLike := 26,
    humidity := 60, pressure := 1012, windSpeed := 3, windDeg := 90,
    visibility := 10000, uvi := none, weatherMain := "Clear",
    weatherDescription := "clear sky", weatherIcon := "01d",
    sunrise := 1700000000, sunset := 1700040000 }

/-- A stored WeatherData document for coordinates (-1, 36) with timestamp
1700000000000 ms. -/
def sampleCachedDoc : WeatherDoc :=
  { user := "u1", latitude := -1, longitude := 36, location := "Nairobi, KE",
    temperature := 24, feelsLike := 25, humidity := 55, pressure := 1010,
    windSpeed := 2, windDirection := 80, visibility := 10000, uvIndex := none,
    conditions := "Clouds", description := "few clouds", icon := "02d",
    sunrise := 1699990000, sunset := 1700030000, timestamp := 1700000000000 }

/-! ### Helper lemmas -/

theorem mem_dedupFirst {α : Type} [DecidableEq α] (a : α) :
    ∀ l : List α, a ∈ dedupFirst l ↔ a ∈ l := by
  intro l
  induction l with
  | nil => simp [dedupFirst]
  | cons x xs ih =>
    simp only [dedupFirst, List.mem_cons, List.mem_filter]
    constructor
    · rintro (rfl | ⟨h1, _⟩)
      · exact Or.inl rfl
      · exact Or.inr (ih.mp h1)
    · rintro (rfl | h)
      · exact Or.inl rfl
      · by_cases hax : a = x
        · exact Or.inl hax
        · exact Or.inr ⟨ih.mpr h, by simpa using hax⟩

theorem nodup_dedupFirst {α : Type} [DecidableEq α] :
    ∀ l : List α, (dedupFirst l).Nodup := by
  intro l
  induction l with
  | nil => simp [dedupFirst]
  | cons x xs ih =>
    simp only [dedupFirst, List.nodup_cons]
    refine ⟨?_, ih.filter _⟩
    intro hx
    exact (by simpa using (List.mem_filter.mp hx).2 : x ≠ x) rfl

theorem dedupFirst_eq_self_of_nodup {α : Type} [DecidableEq α] :
    ∀ l : List α, l.Nodup → dedupFirst l = l := by
  intro l
  induction l with
  | nil => intro _; rfl
  | cons x xs ih =>
    intro h
    rcases List.nodup_cons.mp h with ⟨hx, hxs⟩
    simp only [dedupFirst, ih hxs]
    congr 1
    apply List.filter_eq_self.mpr
    intro a ha
    simp only [decide_eq_true_eq]
    intro hax
    exact hx (hax ▸ ha)

theorem dedupFirst_append {α : Type} [DecidableEq α] (l t : List α) :
    dedupFirst (l ++ t) = dedupFirst l ++ (dedupFirst t).filter (fun a => a ∉ l) := by
  induction l with
  | nil => simp [dedupFirst]
  | cons x xs ih =>
    show dedupFirst (x :: (xs ++ t)) = _
    simp only [dedupFirst]
    rw [ih, List.filter_append, List.filter_filter, List.cons_append]
    congr 2
    apply List.filter_congr
    intro a _
    by_cases h1 : a = x <;> by_cases h2 : a ∈ xs <;> simp [h1, h2]

theorem dedupFirst_append_subset {α : Type} [DecidableEq α] (l t : List α)
    (h : ∀ a ∈ t, a ∈ l) : dedupFirst (l ++ t) = dedupFirst l := by
  rw [dedupFirst_append]
  have hnil : (dedupFirst t).filter (fun a => a ∉ l) = [] := by
    apply List.filter_eq_nil_iff.mpr
    intro a ha
    simp [h a ((mem_dedupFirst a t).mp ha)]
  rw [hnil, List.append_nil]

theorem newestStep_ne_none (acc : Option WeatherDoc) (d : WeatherDoc) :
    newestStep acc d ≠ none := by
  cases acc with
  | none => simp [newestStep]
  | some b =>
    simp only [newestStep]
    split <;> simp

theorem foldl_newestStep_eq_none (l : List WeatherDoc) :
    ∀ acc, l.foldl newestStep acc = none ↔ (acc = none ∧ l = []) := by
  induction l with
  | nil => intro acc; simp
  | cons x xs ih =>
    intro acc
    simp only [List.foldl_cons, ih, List.cons_ne_nil, and_false, iff_false, not_and]
    intro hnone
    exact absurd hnone (newestStep_ne_none acc x)

theorem foldl_newestStep_spec (l : List WeatherDoc) :
    ∀ (acc : Option WeatherDoc) (b : WeatherDoc),
      l.foldl newestStep acc = some b →
      (acc = some b ∨ b ∈ l) ∧
      (∀ a, acc = some a → a.timestamp ≤ b.timestamp) ∧
      (∀ d ∈ l, d.timestamp ≤ b.timestamp) := by
  induction l with
  | nil =>
    intro acc b h
    simp only [List.foldl_nil] at h
    refine ⟨Or.inl h, ?_, by simp⟩
    intro a ha
    rw [ha] at h
    cases h
    exact le_refl _
  | cons x xs ih =>
    intro acc b h
    simp only [List.foldl_cons] at h
    obtain ⟨hmem, hacc, hall⟩ := ih (newestStep acc x) b h
    have hstep_ge_x : ∀ c, newestStep acc x = some c → x.timestamp ≤ c.timestamp := by
      intro c hc
      cases acc with
      | none =>
        simp only [newestStep] at hc
        cases hc
        exact le_refl _
      | some a =>
        simp only [newestStep] at hc
        split at hc
        · cases hc; exact le_refl _
        · cases hc
          omega
    have hstep_ge_acc : ∀ a c, acc = some a → newestStep acc x = some c →
        a.timestamp ≤ c.timestamp := by
      intro a c ha hc
      rw [ha] at hc
      simp only [newestStep] at hc
      split at hc
      · cases hc; omega
      · cases hc; exact le_refl _
    obtain ⟨c, hc⟩ : ∃ c, newestStep acc x = some c := by
      cases hstep : newestStep acc x with
      | none => exact absurd hstep (newestStep_ne_none acc x)
      | some c => exact ⟨c, rfl⟩
    have hcb : c.timestamp ≤ b.timestamp := by
      rcases hmem with hmem | hmem
      · rw [hc] at hmem; cases hmem; exact le_refl _
      · exact hacc c hc
    refine ⟨?_, ?_, ?_⟩
    · rcases hmem with hmem | hmem
      · rw [hc] at hmem
        cases hmem
        cases acc with
        | none =>
          simp only [newestStep] at hc
          cases hc
          exact Or.inr (List.mem_cons_self _ _)
        | some a =>
          simp only [newestStep] at hc
          split at hc
          · cases hc; exact Or.inr (List.mem_cons_self _ _)
          · cases hc; exact Or.inl rfl
      · exact Or.inr (List.mem_cons_of_mem _ hmem)
    · intro a ha
      exact le_trans (hstep_ge_acc a c ha hc) hcb
    · intro d hd
      rcases List.mem_cons.mp hd with rfl | hd
      · exact le_trans (hstep_ge_x c hc) hcb
      · exact hall d hd

/-! ### Claim theorems -/

/-- C9: the claim fails on the code, which clearly intends to
deduplicate (the new Set spread) but does not: the Set compares the
stored ObjectId objects with the request-body strings under
SameValueZero and merges nothing across the two.  Evaluating the
embedded method at the failing input: from an empty sharedWith,
shareWith with a twice-repeated id stores it once (the incoming strings
do deduplicate among themselves), but after shareWith(u2) a second
shareWith(u2) stores u2 twice, so sharedWith is not the duplicate-free
union, contains duplicates, and the repeated call is not a no-op. -/
theorem shareWith_duplicates_failing_input :
    (sampleAnalysisRec.shareWith ["u2", "u2"]).sharedWith = ["u2"] ∧
    ((sampleAnalysisRec.shareWith ["u2"]).shareWith ["u2"]).sharedWith =
      ["u2", "u2"] ∧
    ¬ ((sampleAnalysisRec.shareWith ["u2"]).shareWith ["u2"]).sharedWith.Nodup ∧
    (sampleAnalysisRec.shareWith ["u2"]).shareWith ["u2"] ≠
      sampleAnalysisRec.shareWith ["u2"] := by
  decide

/-- C10 counterexample: a MulterError is none of the kinds the claim
enumerates (CastError, duplicate key 11000, ValidationError,
JsonWebTokenError, TokenExpiredError) and has no statusCode of its own,
so the claim predicts status 500 with the error's own message; the code
instead answers 400 with the multer-specific message. -/
theorem errorHandler_multer_counterexample :
    multerSizeErr.name ≠ "CastError" ∧
    multerSizeErr.code ≠ some (JsCode.num 11000) ∧
    multerSizeErr.name ≠ "ValidationError" ∧
    multerSizeErr.name ≠ "JsonWebTokenError" ∧
    multerSizeErr.name ≠ "TokenExpiredError" ∧
    multerSizeErr.statusCode = none ∧
    (errorHandler multerSizeErr).statusCode ≠ 500 ∧
    (errorHandler multerSizeErr).message ≠ multerSizeErr.message ∧
    errorHandler multerSizeErr =
      { statusCode := 400, success := false, message := "File too large" } := by
  decide

/-- C10 (amended): for every error reaching errorHandler the response has
success false, and the status is determined by the error's kind: a
CastError that is not also a duplicate-key error yields 404 Resource not
found, a duplicate-key error (code 11000) not superseded by a later
branch and a ValidationError yield 400, a JsonWebTokenError or
TokenExpiredError yields 401, a MulterError yields 400, and any error of
no recognised kind yields its own truthy statusCode or 500 with its own
truthy message or Internal Server Error. -/
theorem errorHandler_kinds (err : JsError) :
    (errorHandler err).success = false ∧
    (err.name = "CastError" → err.code ≠ some (JsCode.num 11000) →
      errorHandler err =
        { statusCode := 404, success := false, message := "Resource not found" }) ∧
    (err.code = some (JsCode.num 11000) → err.name ≠ "ValidationError" →
      err.name ≠ "JsonWebTokenError" → err.name ≠ "TokenExpiredError" →
      err.name ≠ "MulterError" → (errorHandler err).statusCode = 400) ∧
    (err.name = "ValidationError" → (errorHandler err).statusCode = 400) ∧
    (err.name = "JsonWebTokenError" → errorHandler err =
      { statusCode := 401, success := false, message := "Invalid token" }) ∧
    (err.name = "TokenExpiredError" → errorHandler err =
      { statusCode := 401, success := false, message := "Token expired" }) ∧
    (err.name = "MulterError" → (errorHandler err).statusCode = 400) ∧
    (err.name ≠ "CastError" → err.name ≠ "ValidationError" →
      err.name ≠ "JsonWebTokenError" → err.name ≠ "TokenExpiredError" →
      err.name ≠ "MulterError" → err.code ≠ some (JsCode.num 11000) →
      (errorHandler err).statusCode = (match err.statusCode with
        | some s => if s = 0 then 500 else s
        | none => 500) ∧
      (errorHandler err).message =
        (if err.message = "" then "Internal Server Error" else err.message)) := by
  refine ⟨?_, ?_, ?_, ?_, ?_, ?_, ?_, ?_⟩
  · simp only [errorHandler]
  · intro h1 h2
    have h3 : err.name ≠ "ValidationError" := by rw [h1]; decide
    have h4 : err.name ≠ "JsonWebTokenError" := by rw [h1]; decide
    have h5 : err.name ≠ "TokenExpiredError" := by rw [h1]; decide
    have h6 : err.name ≠ "MulterError" := by rw [h1]; decide
    simp [errorHandler, h1, h2, h3, h4, h5, h6]
  · intro h1 h2 h3 h4 h5
    have h6 : err.name ≠ "CastError" ∨ err.name = "CastError" := by tauto
    rcases h6 with h6 | h6 <;> simp [errorHandler, h1, h2, h3, h4, h5, h6]
  · intro h1
    have h2 : err.name ≠ "JsonWebTokenError" := by rw [h1]; decide
    have h3 : err.name ≠ "TokenExpiredError" := by rw [h1]; decide
    have h4 : err.name ≠ "MulterError" := by rw [h1]; decide
    simp [errorHandler, h1, h2, h3, h4]
  · intro h1
    have h2 : err.name ≠ "TokenExpiredError" := by rw [h1]; decide
    have h3 : err.name ≠ "MulterError" := by rw [h1]; decide
    simp [errorHandler, h1, h2, h3]
  · intro h1
    have h2 : err.name ≠ "MulterError" := by rw [h1]; decide
    simp [errorHandler, h1, h2]
  · intro h1
    simp only [errorHandler, h1, if_true]
    split <;> simp_all
  · intro h1 h2 h3 h4 h5 h6
    simp [errorHandler, h1, h2, h3, h4, h5, h6]

/-- C10 witness: the amended kinds theorem applied to a concrete
CastError (yielding 404) and to a plain error carrying statusCode 429. -/
theorem errorHandler_kinds_witness :
    errorHandler castErrExample =
      { statusCode := 404, success := false, message := "Resource not found" } ∧
    (errorHandler plainErrExample).statusCode = 429 := by
  constructor
  · exact (errorHandler_kinds castErrExample).2.1 rfl (by decide)
  · have h := (errorHandler_kinds plainErrExample).2.2.2.2.2.2.2
      (by decide) (by decide) (by decide) (by decide) (by decide) (by decide)
    rw [h.1]
    decide

/-- C1: For every GET /api/weather/current request with latitude and
longitude, if some stored weather document for that exact coordinate pair
is at most 10 minutes old, the handler answers from the cache with source
cache, returning a fresh matching stored document of maximal timestamp,
and does not call the third-party API; otherwise it calls the API, stores
the newly built document and returns it with source api. -/
theorem weather_current_cache_spec (now : ℤ) (userId : String) (lat lon : ℚ)
    (loc : Option String) (docs : List WeatherDoc) (api : ApiWeather) :
    ((∃ d ∈ docs, d.latitude = lat ∧ d.longitude = lon ∧
        now - 10 * 60 * 1000 ≤ d.timestamp) →
      (getCurrentWeather now userId lat lon loc docs api).apiCalled = false ∧
      (getCurrentWeather now userId lat lon loc docs api).docsAfter = docs ∧
      (getCurrentWeather now userId lat lon loc docs api).resp.success = true ∧
      (getCurrentWeather now userId lat lon loc docs api).resp.source = "cache" ∧
      (getCurrentWeather now userId lat lon loc docs api).resp.weather ∈ docs ∧
      (getCurrentWeather now userId lat lon loc docs api).resp.weather.latitude = lat ∧
      (getCurrentWeather now userId lat lon loc docs api).resp.weather.longitude = lon ∧
      now - 10 * 60 * 1000 ≤
        (getCurrentWeather now userId lat lon loc docs api).resp.weather.timestamp ∧
      (∀ d ∈ docs, d.latitude = lat → d.longitude = lon →
        now - 10 * 60 * 1000 ≤ d.timestamp →
        d.timestamp ≤
          (getCurrentWeather now userId lat lon loc docs api).resp.weather.timestamp)) ∧
    ((¬ ∃ d ∈ docs, d.latitude = lat ∧ d.longitude = lon ∧
        now - 10 * 60 * 1000 ≤ d.timestamp) →
      (getCurrentWeather now userId lat lon loc docs api).apiCalled = true ∧
      (getCurrentWeather now userId lat lon loc docs api).docsAfter =
        docs ++ [mkWeatherRecord userId lat lon loc api now] ∧
      (getCurrentWeather now userId lat lon loc docs api).resp =
        { success := true, source := "api",
          weather := mkWeatherRecord userId lat lon loc api now }) := by
  constructor
  · rintro ⟨d, hd, hprop⟩
    have hpd : weatherCacheFilter lat lon (now - 10 * 60 * 1000) d = true := by
      rw [weatherCacheFilter]
      exact decide_eq_true hprop
    have hdf : d ∈ docs.filter (weatherCacheFilter lat lon (now - 10 * 60 * 1000)) :=
      List.mem_filter.mpr ⟨hd, hpd⟩
    obtain ⟨b, hb⟩ : ∃ b, findNewestMatch docs
        (weatherCacheFilter lat lon (now - 10 * 60 * 1000)) = some b := by
      cases hres : findNewestMatch docs
          (weatherCacheFilter lat lon (now - 10 * 60 * 1000)) with
      | none =>
        rw [findNewestMatch] at hres
        have := (foldl_newestStep_eq_none _ none).mp hres
        rw [this.2] at hdf
        cases hdf
      | some b => exact ⟨b, rfl⟩
    obtain ⟨hbmem, _, hbmax⟩ := foldl_newestStep_spec _ none b hb
    have hbfilter : b ∈ docs.filter (weatherCacheFilter lat lon (now - 10 * 60 * 1000)) := by
      rcases hbmem with h | h
      · cases h
      · exact h
    obtain ⟨hbdocs, hbp⟩ := List.mem_filter.mp hbfilter
    have hbprop : b.latitude = lat ∧ b.longitude = lon ∧
        now - 10 * 60 * 1000 ≤ b.timestamp := by
      rw [weatherCacheFilter] at hbp
      exact of_decide_eq_true hbp
    have hb6 : findNewestMatch docs (weatherCacheFilter lat lon (now - 600000)) = some b := by
      have he : now - 600000 = now - 10 * 60 * 1000 := by norm_num
      rw [he]
      exact hb
    have hout : getCurrentWeather now userId lat lon loc docs api =
        ⟨⟨true, "cache", b⟩, docs, false⟩ := by
      simp [getCurrentWeather, hb6]
    rw [hout]
    refine ⟨rfl, rfl, rfl, rfl, hbdocs, hbprop.1, hbprop.2.1, hbprop.2.2, ?_⟩
    intro d' hd' h1 h2 h3
    refine hbmax d' (List.mem_filter.mpr ⟨hd', ?_⟩)
    rw [weatherCacheFilter]
    exact decide_eq_true ⟨h1, h2, h3⟩
  · intro hno
    have hfilter : docs.filter (weatherCacheFilter lat lon (now - 10 * 60 * 1000)) = [] := by
      apply List.filter_eq_nil_iff.mpr
      intro d hd hpd
      apply hno
      rw [weatherCacheFilter] at hpd
      exact ⟨d, hd, of_decide_eq_true hpd⟩
    have hnone : findNewestMatch docs
        (weatherCacheFilter lat lon (now - 10 * 60 * 1000)) = none := by
      rw [findNewestMatch, hfilter]
      rfl
    have hnone6 : findNewestMatch docs (weatherCacheFilter lat lon (now - 600000)) = none := by
      have he : now - 600000 = now - 10 * 60 * 1000 := by norm_num
      rw [he]
      exact hnone
    have hout : getCurrentWeather now userId lat lon loc docs api =
        ⟨⟨true, "api", mkWeatherRecord userId lat lon loc api now⟩,
          docs ++ [mkWeatherRecord userId lat lon loc api now], true⟩ := by
      simp [getCurrentWeather, hnone6]
    rw [hout]
    exact ⟨rfl, rfl, rfl⟩

/-- C1 witness: with a five-minute-old cached document for (-1, 36) the
handler answers from the cache without calling the API; with no stored
documents it calls the API and stores the new record. -/
theorem weather_current_cache_spec_witness :
    (getCurrentWeather 1700000300000 "u1" (-1) 36 none [sampleCachedDoc]
      sampleApiWeather).apiCalled = false ∧
    (getCurrentWeather 1700000300000 "u1" (-1) 36 none [sampleCachedDoc]
      sampleApiWeather).resp.source = "cache" ∧
    (getCurrentWeather 1700000300000 "u1" (-1) 36 none []
      sampleApiWeather).apiCalled = true := by
  have hhit := (weather_current_cache_spec 1700000300000 "u1" (-1) 36 none
    [sampleCachedDoc] sampleApiWeather).1
    ⟨sampleCachedDoc, by simp, by decide⟩
  have hmiss := (weather_current_cache_spec 1700000300000 "u1" (-1) 36 none
    [] sampleApiWeather).2 (by simp)
  exact ⟨hhit.1, hhit.2.2.2.1, hmiss.1⟩

/-- C4: For every route wrapped in validate(schema), a request body that
fails the schema is answered with HTTP 400, success false and the
comma-joined validation messages, and the route handler is never invoked;
a body that passes has req.body replaced by the validated value (with the
schema's defaults applied by the schema) before the handler runs. -/
theorem validate_middleware_spec {B R : Type}
    (schemaValidate : B → Option (List String) × B) (handler : B → R)
    (body : B) :
    (∀ details v, schemaValidate body = (some details, v) →
      validate schemaValidate handler body =
        MwOutcome.response 400 false (String.intercalate ", " details)) ∧
    (∀ v, schemaValidate body = (none, v) →
      validate schemaValidate handler body = MwOutcome.handled (handler v)) ∧
    (∀ details v, schemaValidate body = (some details, v) →
      ∀ r : R, validate schemaValidate handler body ≠ MwOutcome.handled r) := by
  refine ⟨?_, ?_, ?_⟩
  · intro details v h
    simp [validate, h]
  · intro v h
    simp [validate, h]
  · intro details v h r
    simp [validate, h]

/-- C4 witness: the chatMessage schema instantiated concretely: a valid
body reaches the handler with the language default en applied; a body
missing message is answered 400 with the Joi message and never reaches
the handler. -/
theorem validate_middleware_spec_witness :
    validate joiChatMessage (fun v => v) chatBodyOk =
      MwOutcome.handled { chatBodyOk with language := some "en" } ∧
    validate joiChatMessage (fun v => v) chatBodyBad =
      MwOutcome.response 400 false
        (String.intercalate ", " ["\"message\" is required"]) ∧
    (∀ r, validate joiChatMessage (fun v => v) chatBodyBad ≠
      MwOutcome.handled r) := by
  refine ⟨?_, ?_, ?_⟩
  · exact (validate_middleware_spec joiChatMessage (fun v => v) chatBodyOk).2.1
      _ (by decide)
  · exact (validate_middleware_spec joiChatMessage (fun v => v) chatBodyBad).1
      ["\"message\" is required"] chatBodyBad (by decide)
  · exact (validate_middleware_spec joiChatMessage (fun v => v) chatBodyBad).2.2
      ["\"message\" is required"] chatBodyBad (by decide)

/-- C2: every image analysis record is created with status pending; along
the upload-and-background-classification pipeline the sequence of saved
states steps only pending to processing, processing to completed
(classifier success) or processing to failed (classifier error); no state
of the sequence that has a successor is completed or failed; and the
status always is one of the four enum values. -/
theorem image_status_lifecycle (userId filePath fileUrl : String)
    (out : ClassifierOutcome) :
    (uploadHandler userId filePath fileUrl).createdRecord.status =
      AnalysisStatus.pending ∧
    List.Chain' (fun a b => allowedTransition a.status b.status = true)
      ((uploadHandler userId filePath fileUrl).createdRecord ::
        (uploadHandler userId filePath fileUrl).background out) ∧
    (∀ p ∈ ((uploadHandler userId filePath fileUrl).createdRecord ::
        (uploadHandler userId filePath fileUrl).background out).zip
        ((uploadHandler userId filePath fileUrl).background out),
      p.1.status ≠ AnalysisStatus.completed ∧
      p.1.status ≠ AnalysisStatus.failed) ∧
    (∀ r ∈ ((uploadHandler userId filePath fileUrl).createdRecord ::
        (uploadHandler userId filePath fileUrl).background out),
      r.status = AnalysisStatus.pending ∨ r.status = AnalysisStatus.processing ∨
      r.status = AnalysisStatus.completed ∨ r.status = AnalysisStatus.failed) ∧
    (∀ a t, out = ClassifierOutcome.ok a t →
      ((uploadHandler userId filePath fileUrl).background out).map
          (fun r => r.status) =
        [AnalysisStatus.processing, AnalysisStatus.completed]) ∧
    (∀ m, out = ClassifierOutcome.error m →
      ((uploadHandler userId filePath fileUrl).background out).map
          (fun r => r.status) =
        [AnalysisStatus.processing, AnalysisStatus.failed]) := by
  cases out with
  | ok a t =>
    refine ⟨rfl, ?_, ?_, ?_, ?_, ?_⟩
    · simp [uploadHandler, createImageAnalysis, backgroundAnalysisStates,
        allowedTransition]
    · intro p hp
      simp only [uploadHandler, createImageAnalysis, backgroundAnalysisStates,
        List.zip_cons_cons, List.zip_nil_right, List.mem_cons,
        List.mem_singleton] at hp
      rcases hp with rfl | rfl | h
      · exact ⟨by simp, by simp⟩
      · exact ⟨by simp, by simp⟩
      · cases h
    · intro r hr
      simp only [uploadHandler, createImageAnalysis, backgroundAnalysisStates,
        List.mem_cons, List.mem_singleton] at hr
      rcases hr with rfl | rfl | rfl | h
      · simp
      · simp
      · simp
      · cases h
    · intro a' t' h
      cases h
      simp [uploadHandler, createImageAnalysis, backgroundAnalysisStates]
    · intro m h
      cases h
  | error m =>
    refine ⟨rfl, ?_, ?_, ?_, ?_, ?_⟩
    · simp [uploadHandler, createImageAnalysis, backgroundAnalysisStates,
        allowedTransition]
    · intro p hp
      simp only [uploadHandler, createImageAnalysis, backgroundAnalysisStates,
        List.zip_cons_cons, List.zip_nil_right, List.mem_cons,
        List.mem_singleton] at hp
      rcases hp with rfl | rfl | h
      · exact ⟨by simp, by simp⟩
      · exact ⟨by simp, by simp⟩
      · cases h
    · intro r hr
      simp only [uploadHandler, createImageAnalysis, backgroundAnalysisStates,
        List.mem_cons, List.mem_singleton] at hr
      rcases hr with rfl | rfl | rfl | h
      · simp
      · simp
      · simp
      · cases h
    · intro a' t' h
      cases h
    · intro m' h
      cases h
      simp [uploadHandler, createImageAnalysis, backgroundAnalysisStates]

/-- C2 witness: the lifecycle theorem applied to a concrete upload with a
successful classifier run: the created record is pending and the
background statuses are processing then completed. -/
theorem image_status_lifecycle_witness :
    (uploadHandler "u1" "/uploads/images/a.jpg" "/uploads/images/a.jpg"
      ).createdRecord.status = AnalysisStatus.pending ∧
    ((uploadHandler "u1" "/uploads/images/a.jpg" "/uploads/images/a.jpg"
      ).background (ClassifierOutcome.ok "healthy maize" 2)).map
      (fun r => r.status) =
      [AnalysisStatus.processing, AnalysisStatus.completed] := by
  have h := image_status_lifecycle "u1" "/uploads/images/a.jpg"
    "/uploads/images/a.jpg" (ClassifierOutcome.ok "healthy maize" 2)
  exact ⟨h.1, h.2.2.2.2.1 "healthy maize" 2 rfl⟩

/-- C5: an upload with a valid image file creates the analysis record and
the immediate response has success true and data.status the string
processing while the stored record still has status pending and no
analysis (classification has not yet run); the background task afterwards
ends with status completed together with the analysis and processingTime
on classifier success, or with status failed together with errorMessage
on classifier error. -/
theorem image_upload_async_spec (userId filePath fileUrl : String) :
    (uploadHandler userId filePath fileUrl).response.success = true ∧
    (uploadHandler userId filePath fileUrl).response.dataStatus = "processing" ∧
    (uploadHandler userId filePath fileUrl).response.message =
      "Image uploaded successfully, analysis in progress" ∧
    (uploadHandler userId filePath fileUrl).response.dataAnalysis =
      (uploadHandler userId filePath fileUrl).createdRecord ∧
    (uploadHandler userId filePath fileUrl).createdRecord.status =
      AnalysisStatus.pending ∧
    (uploadHandler userId filePath fileUrl).createdRecord.analysis = none ∧
    (∀ a t,
      ((uploadHandler userId filePath fileUrl).background
          (ClassifierOutcome.ok a t)).getLast? =
        some { (uploadHandler userId filePath fileUrl).createdRecord with
          status := AnalysisStatus.completed, analysis := some a,
          processingTime := some t }) ∧
    (∀ m,
      ((uploadHandler userId filePath fileUrl).background
          (ClassifierOutcome.error m)).getLast? =
        some { (uploadHandler userId filePath fileUrl).createdRecord with
          status := AnalysisStatus.failed, errorMessage := some m }) := by
  refine ⟨rfl, rfl, rfl, rfl, rfl, rfl, ?_, ?_⟩
  · intro a t
    rfl
  · intro m
    rfl

theorem chatSessionPreSave_messages (b : Bool) (s : ChatSessionRec) :
    (chatSessionPreSave b s).messages = s.messages := by
  unfold chatSessionPreSave
  split
  · dsimp only
    split
    · split <;> rfl
    · rfl
  · rfl

theorem chatSessionPreSave_messageCount (s : ChatSessionRec) :
    (chatSessionPreSave true s).messageCount = s.messages.length := by
  unfold chatSessionPreSave
  split
  · dsimp only
    split
    · split <;> rfl
    · rfl
  · rename_i h
    exact absurd rfl h

/-- C3: in POST /api/chatbot/chat the conversation history supplied to
the generative-AI call (whenever the client is available, that is, gem is
not noClient) is exactly the fixed two-entry system-prompt exchange
followed by the session's last min(10, n) stored messages in stored
order, taken before the new user message is appended, with stored role
assistant mapped to role model and every other stored role to user. -/
theorem chat_history_construction (session : ChatSessionRec)
    (message language : String) (rand : Nat) (gem : GeminiOutcome)
    (hgem : gem ≠ GeminiOutcome.noClient) :
    (chatHandler session message language rand gem).historySent =
      some (systemExchange language ++
        (jsSliceLast 10 session.messages).map mapToGemini) ∧
    jsSliceLast 10 session.messages =
      (session.messages.reverse.take 10).reverse ∧
    (jsSliceLast 10 session.messages).length = min 10 session.messages.length ∧
    (systemExchange language).length = 2 ∧
    (∀ m ∈ session.messages,
      (mapToGemini m).role = (if m.role = "assistant" then "model" else "user") ∧
      (mapToGemini m).text = m.content) := by
  refine ⟨?_, ?_, ?_, rfl, ?_⟩
  · cases gem with
    | noClient => exact absurd rfl hgem
    | ok t =>
      simp only [chatHandler]
      split <;> rfl
    | error m => rfl
  · have h := List.rtake_eq_reverse_take_reverse session.messages 10
    unfold List.rtake at h
    unfold jsSliceLast
    exact h
  · rw [jsSliceLast, List.length_drop]
    omega
  · intro m _
    exact ⟨rfl, rfl⟩

/-- C3 witness: the history theorem applied to the sample session with a
successful client call. -/
theorem chat_history_construction_witness :
    (chatHandler sampleSession "Tell me about compost" "en" 0
      (GeminiOutcome.ok "Compost enriches soil.")).historySent =
      some (systemExchange "en" ++
        (jsSliceLast 10 sampleSession.messages).map mapToGemini) :=
  (chat_history_construction sampleSession "Tell me about compost" "en" 0
    (GeminiOutcome.ok "Compost enriches soil.") (by decide)).1

/-- C6: every successful chat request (non-blank message) appends exactly
the trimmed user message followed by the assistant reply to the session's
message list, leaving all previous turns and their order unchanged; the
reply saved equals the reply returned and is never the empty string; and
whenever the client is absent, fails, or returns blank text, the reply is
marked as coming from the local knowledge-base fallback. -/
theorem chat_appends_two_turns (session : ChatSessionRec)
    (message language : String) (rand : Nat) (gem : GeminiOutcome)
    (_hmsg : jsTrim message ≠ "") :
    (chatHandler session message language rand gem).sessionAfter.messages =
      session.messages ++
        [⟨"user", jsTrim message, none, none⟩,
         ⟨"assistant", (chatHandler session message language rand gem).response,
           some (chatHandler session message language rand gem).responseSource,
           some (if (chatHandler session message language rand gem).responseSource =
               "gemini" then "gemini-2.5-flash" else "local-knowledge")⟩] ∧
    (chatHandler session message language rand gem).response ≠ "" ∧
    ((gem = GeminiOutcome.noClient ∨ (∃ e, gem = GeminiOutcome.error e) ∨
        (∃ t, gem = GeminiOutcome.ok t ∧ jsTrim t = "")) →
      (chatHandler session message language rand gem).responseSource = "local") := by
  refine ⟨?_, ?_, ?_⟩
  · simp only [chatHandler]
    rw [chatSessionPreSave_messages]
    simp [List.append_assoc]
  · simp only [chatHandler]
    split
    · decide
    · rename_i h
      rw [not_or] at h
      exact h.2
  · intro h
    rcases h with rfl | ⟨e, rfl⟩ | ⟨t, rfl, ht⟩
    · simp only [chatHandler]
      split <;> rfl
    · simp only [chatHandler]
      split <;> rfl
    · simp only [chatHandler]
      rw [if_pos (Or.inr ht)]
      split <;> rfl

/-- C6 witness: the append theorem applied to the sample session with the
client absent, so the local fallback is used. -/
theorem chat_appends_two_turns_witness :
    (chatHandler sampleSession "What about compost?" "en" 1
      GeminiOutcome.noClient).response ≠ "" ∧
    (chatHandler sampleSession "What about compost?" "en" 1
      GeminiOutcome.noClient).responseSource = "local" := by
  have h := chat_appends_two_turns sampleSession "What about compost?" "en" 1
    GeminiOutcome.noClient (by decide)
  exact ⟨h.2.1, h.2.2 (Or.inl rfl)⟩

/-- C8: after every save of a chat session whose message list was
modified the stored messageCount equals the length of the messages array;
in particular the session saved by a chat request has messageCount equal
to the old length plus two, so whenever messageCount was consistent
before the request it increases by exactly two. -/
theorem chat_messageCount_invariant (session : ChatSessionRec)
    (message language : String) (rand : Nat) (gem : GeminiOutcome) :
    (∀ s : ChatSessionRec,
      (chatSessionPreSave true s).messageCount = s.messages.length) ∧
    (chatHandler session message language rand gem).sessionAfter.messageCount =
      (chatHandler session message language rand gem).sessionAfter.messages.length ∧
    (chatHandler session message language rand gem).sessionAfter.messageCount =
      session.messages.length + 2 ∧
    (session.messageCount = session.messages.length →
      (chatHandler session message language rand gem).sessionAfter.messageCount =
        session.messageCount + 2) := by
  have h2 : (chatHandler session message language rand gem).sessionAfter.messageCount =
      session.messages.length + 2 := by
    simp only [chatHandler]
    rw [chatSessionPreSave_messageCount]
    simp
  refine ⟨chatSessionPreSave_messageCount, ?_, h2, ?_⟩
  · rw [h2]
    simp only [chatHandler]
    rw [chatSessionPreSave_messages]
    simp
  · intro hinv
    rw [h2, hinv]

/-- C8 witness: a chat request on a fresh session (messageCount 0) leaves
the saved messageCount at 2. -/
theorem chat_messageCount_invariant_witness :
    (chatHandler (createChatSession "en") "Water early morning" "en" 0
      GeminiOutcome.noClient).sessionAfter.messageCount =
      (createChatSession "en").messageCount + 2 :=
  (chat_messageCount_invariant (createChatSession "en") "Water early morning"
    "en" 0 GeminiOutcome.noClient).2.2.2 rfl

theorem pushItem_keys (gs : List (String × List ForecastItem))
    (it : ForecastItem) :
    (pushItem gs it).map Prod.fst =
      if it.dateKey ∈ gs.map Prod.fst then gs.map Prod.fst
      else gs.map Prod.fst ++ [it.dateKey] := by
  induction gs with
  | nil => simp [pushItem]
  | cons g rest ih =>
    obtain ⟨k, xs⟩ := g
    by_cases hk : k = it.dateKey
    · simp [pushItem, hk]
    · simp only [pushItem, if_neg hk, List.map_cons]
      rw [ih]
      by_cases hmem : it.dateKey ∈ rest.map Prod.fst
      · simp [hmem, List.mem_cons]
      · simp [hmem, List.mem_cons, Ne.symm hk]

theorem lookupDay_pushItem (gs : List (String × List ForecastItem))
    (it : ForecastItem) (q : String) :
    lookupDay (pushItem gs it) q =
      if q = it.dateKey then some ((lookupDay gs q).getD [] ++ [it])
      else lookupDay gs q := by
  induction gs with
  | nil =>
    simp only [pushItem, lookupDay]
    by_cases hq : it.dateKey = q
    · simp [hq]
    · simp [hq, Ne.symm hq]
  | cons g rest ih =>
    obtain ⟨k, xs⟩ := g
    simp only [pushItem]
    by_cases hk : k = it.dateKey
    · rw [if_pos hk]
      simp only [lookupDay]
      by_cases hq : k = q
      · have hq2 : q = it.dateKey := hq.symm.trans hk
        simp [hq, hq2]
      · have hq2 : ¬(q = it.dateKey) := fun h => hq (hk.trans h.symm)
        simp [hq, hq2]
    · rw [if_neg hk]
      simp only [lookupDay]
      by_cases hq : k = q
      · have hq2 : ¬(q = it.dateKey) := fun h => hk (hq.trans h)
        simp [hq, hq2]
      · simp [hq, ih]

theorem lookup_groupByDay (items : List ForecastItem) (q : String) :
    lookupDay (groupByDay items) q =
      if items.filter (fun it => decide (it.dateKey = q)) = [] then none
      else some (items.filter (fun it => decide (it.dateKey = q))) := by
  induction items using List.reverseRecOn with
  | nil => simp [groupByDay, lookupDay]
  | append_singleton l it ih =>
    have hgroup : groupByDay (l ++ [it]) = pushItem (groupByDay l) it := by
      simp [groupByDay, List.foldl_append]
    rw [hgroup, lookupDay_pushItem]
    by_cases hq : q = it.dateKey
    · rw [if_pos hq, ih]
      have hfilter : (l ++ [it]).filter (fun x => decide (x.dateKey = q)) =
          l.filter (fun x => decide (x.dateKey = q)) ++ [it] := by
        rw [List.filter_append]
        simp [hq.symm]
      rw [hfilter]
      by_cases hnil : l.filter (fun x => decide (x.dateKey = q)) = []
      · simp [hnil]
      · simp [hnil]
    · rw [if_neg hq, ih]
      have hne : ¬(it.dateKey = q) := fun h => hq h.symm
      have hfilter : (l ++ [it]).filter (fun x => decide (x.dateKey = q)) =
          l.filter (fun x => decide (x.dateKey = q)) := by
        rw [List.filter_append]
        simp [hne]
      rw [hfilter]

theorem groupByDay_keys_nodup (items : List ForecastItem) :
    ((groupByDay items).map Prod.fst).Nodup := by
  induction items using List.reverseRecOn with
  | nil => simp [groupByDay]
  | append_singleton l it ih =>
    have hgroup : groupByDay (l ++ [it]) = pushItem (groupByDay l) it := by
      simp [groupByDay, List.foldl_append]
    rw [hgroup, pushItem_keys]
    by_cases hmem : it.dateKey ∈ (groupByDay l).map Prod.fst
    · simpa [hmem] using ih
    · rw [if_neg hmem]
      simp [List.nodup_append, ih, hmem]

theorem lookupDay_eq_of_mem (gs : List (String × List ForecastItem))
    (hnd : (gs.map Prod.fst).Nodup) (k : String) (xs : List ForecastItem)
    (hmem : (k, xs) ∈ gs) : lookupDay gs k = some xs := by
  induction gs with
  | nil => cases hmem
  | cons g rest ih =>
    obtain ⟨k2, xs2⟩ := g
    rw [List.map_cons, List.nodup_cons] at hnd
    rcases List.mem_cons.mp hmem with heq | hmem2
    · injection heq with h1 h2
      subst h1
      subst h2
      simp [lookupDay]
    · by_cases hk : k2 = k
      · subst hk
        exact absurd (List.mem_map.mpr ⟨(k2, xs), hmem2, rfl⟩) hnd.1
      · simp only [lookupDay, if_neg hk]
        exact ih hnd.2 hmem2

theorem foldl_min_le (xs : List ℚ) :
    ∀ a : ℚ, xs.foldl min a ≤ a ∧ ∀ y ∈ xs, xs.foldl min a ≤ y := by
  induction xs with
  | nil => intro a; exact ⟨le_refl a, by simp⟩
  | cons x xs ih =>
    intro a
    obtain ⟨h1, h2⟩ := ih (min a x)
    rw [List.foldl_cons]
    refine ⟨le_trans h1 (min_le_left a x), ?_⟩
    intro y hy
    rcases List.mem_cons.mp hy with rfl | hy
    · exact le_trans h1 (min_le_right a y)
    · exact h2 y hy

theorem foldl_min_mem (xs : List ℚ) :
    ∀ a : ℚ, xs.foldl min a = a ∨ xs.foldl min a ∈ xs := by
  induction xs with
  | nil => intro a; exact Or.inl rfl
  | cons x xs ih =>
    intro a
    rw [List.foldl_cons]
    rcases ih (min a x) with h | h
    · rcases min_choice a x with hc | hc
      · exact Or.inl (by rw [h, hc])
      · exact Or.inr (by rw [h, hc]; exact List.mem_cons_self x xs)
    · exact Or.inr (List.mem_cons_of_mem x h)

theorem foldl_max_ge (xs : List ℚ) :
    ∀ a : ℚ, a ≤ xs.foldl max a ∧ ∀ y ∈ xs, y ≤ xs.foldl max a := by
  induction xs with
  | nil => intro a; exact ⟨le_refl a, by simp⟩
  | cons x xs ih =>
    intro a
    obtain ⟨h1, h2⟩ := ih (max a x)
    rw [List.foldl_cons]
    refine ⟨le_trans (le_max_left a x) h1, ?_⟩
    intro y hy
    rcases List.mem_cons.mp hy with rfl | hy
    · exact le_trans (le_max_right a y) h1
    · exact h2 y hy

theorem foldl_max_mem (xs : List ℚ) :
    ∀ a : ℚ, xs.foldl max a = a ∨ xs.foldl max a ∈ xs := by
  induction xs with
  | nil => intro a; exact Or.inl rfl
  | cons x xs ih =>
    intro a
    rw [List.foldl_cons]
    rcases ih (max a x) with h | h
    · rcases max_choice a x with hc | hc
      · exact Or.inl (by rw [h, hc])
      · exact Or.inr (by rw [h, hc]; exact List.mem_cons_self x xs)
    · exact Or.inr (List.mem_cons_of_mem x h)

theorem jsMathMin_mem (l : List ℚ) (hl : l ≠ []) : jsMathMin l ∈ l := by
  cases l with
  | nil => exact absurd rfl hl
  | cons x xs =>
    show xs.foldl min x ∈ x :: xs
    rcases foldl_min_mem xs x with h | h
    · rw [h]; exact List.mem_cons_self x xs
    · exact List.mem_cons_of_mem x h

theorem jsMathMin_le (l : List ℚ) : ∀ y ∈ l, jsMathMin l ≤ y := by
  cases l with
  | nil => simp
  | cons x xs =>
    intro y hy
    show xs.foldl min x ≤ y
    rcases List.mem_cons.mp hy with rfl | hy
    · exact (foldl_min_le xs y).1
    · exact (foldl_min_le xs x).2 y hy

theorem jsMathMax_mem (l : List ℚ) (hl : l ≠ []) : jsMathMax l ∈ l := by
  cases l with
  | nil => exact absurd rfl hl
  | cons x xs =>
    show xs.foldl max x ∈ x :: xs
    rcases foldl_max_mem xs x with h | h
    · rw [h]; exact List.mem_cons_self x xs
    · exact List.mem_cons_of_mem x h

theorem jsMathMax_ge (l : List ℚ) : ∀ y ∈ l, y ≤ jsMathMax l := by
  cases l with
  | nil => simp
  | cons x xs =>
    intro y hy
    show y ≤ xs.foldl max x
    rcases List.mem_cons.mp hy with rfl | hy
    · exact (foldl_max_ge xs y).1
    · exact (foldl_max_ge xs x).2 y hy

theorem foldl_add_sum (l : List ℚ) :
    ∀ a : ℚ, l.foldl (fun s t => s + t) a = a + l.sum := by
  induction l with
  | nil => intro a; simp
  | cons x xs ih =>
    intro a
    rw [List.foldl_cons, ih, List.sum_cons]
    ring

theorem foldl_add_map_sum (l : List ForecastItem) (f : ForecastItem → ℚ) :
    ∀ a : ℚ, l.foldl (fun s it => s + f it) a = a + (l.map f).sum := by
  induction l with
  | nil => intro a; simp
  | cons x xs ih =>
    intro a
    rw [List.foldl_cons, ih, List.map_cons, List.sum_cons]
    ring

/-- C7: every daily summary of the GET /api/weather/forecast response
covers exactly one calendar day of the grouped 3-hour intervals: its
hourly list is the day's items in original order; minTemp and maxTemp
are the minimum and maximum of the day's interval temperatures; avgTemp
times the number of intervals equals the sum of their temperatures (the
arithmetic mean in exact arithmetic); precipitation is the sum of the
intervals' precipitation; and humidity, conditions, description and icon
are those of the day's first interval. -/
theorem forecast_daily_summary_spec (items : List ForecastItem)
    (s : DailySummary) (hs : s ∈ dailySummaries items) :
    s.hourly ≠ [] ∧
    s.hourly = items.filter (fun it => decide (it.dateKey = s.date)) ∧
    (∀ it ∈ s.hourly, it.dateKey = s.date) ∧
    (s.minTemp ∈ s.hourly.map (fun it => it.temperature) ∧
      ∀ t ∈ s.hourly.map (fun it => it.temperature), s.minTemp ≤ t) ∧
    (s.maxTemp ∈ s.hourly.map (fun it => it.temperature) ∧
      ∀ t ∈ s.hourly.map (fun it => it.temperature), t ≤ s.maxTemp) ∧
    s.avgTemp * (s.hourly.length : ℚ) =
      (s.hourly.map (fun it => it.temperature)).sum ∧
    s.precipitation = (s.hourly.map (fun it => it.precipitation)).sum ∧
    (∃ h rest, s.hourly = h :: rest ∧ s.humidity = h.humidity ∧
      s.conditions = h.conditions ∧ s.description = h.description ∧
      s.icon = h.icon) := by
  obtain ⟨g, hg, rfl⟩ := List.mem_map.mp hs
  obtain ⟨k, xs⟩ := g
  have hlook : lookupDay (groupByDay items) k = some xs :=
    lookupDay_eq_of_mem _ (groupByDay_keys_nodup items) k xs hg
  rw [lookup_groupByDay] at hlook
  have hxs : xs = items.filter (fun it => decide (it.dateKey = k)) ∧
      items.filter (fun it => decide (it.dateKey = k)) ≠ [] := by
    by_cases hnil : items.filter (fun it => decide (it.dateKey = k)) = []
    · rw [if_pos hnil] at hlook
      cases hlook
    · rw [if_neg hnil] at hlook
      injection hlook with hlook2
      exact ⟨hlook2.symm, hnil⟩
  obtain ⟨hfeq, hfne⟩ := hxs
  have hne : xs ≠ [] := by rw [hfeq]; exact hfne
  have hdate : (daySummary (k, xs)).date = k := rfl
  have hhourly : (daySummary (k, xs)).hourly = xs := rfl
  have htempsne : xs.map (fun it => it.temperature) ≠ [] := by
    intro h
    exact hne (List.map_eq_nil_iff.mp h)
  refine ⟨?_, ?_, ?_, ?_, ?_, ?_, ?_, ?_⟩
  · rw [hhourly]; exact hne
  · rw [hhourly, hdate]; exact hfeq
  · intro it hit
    rw [hhourly] at hit
    rw [hfeq] at hit
    rw [hdate]
    have := (List.mem_filter.mp hit).2
    exact of_decide_eq_true this
  · constructor
    · rw [hhourly]
      exact jsMathMin_mem _ htempsne
    · intro t ht
      rw [hhourly] at ht
      exact jsMathMin_le _ t ht
  · constructor
    · rw [hhourly]
      exact jsMathMax_mem _ htempsne
    · intro t ht
      rw [hhourly] at ht
      exact jsMathMax_ge _ t ht
  · rw [hhourly]
    show (xs.map (fun it => it.temperature)).foldl (fun a b => a + b) 0 /
        ((xs.map (fun it => it.temperature)).length : ℚ) * (xs.length : ℚ) =
      (xs.map (fun it => it.temperature)).sum
    rw [foldl_add_sum, zero_add, List.length_map]
    have hlen : ((xs.length : ℚ)) ≠ 0 := by
      have : xs.length ≠ 0 := by
        intro h
        exact hne (List.length_eq_zero.mp h)
      exact_mod_cast this
    rw [div_mul_cancel₀ _ hlen]
  · rw [hhourly]
    show xs.foldl (fun acc it => acc + it.precipitation) 0 =
      (xs.map (fun it => it.precipitation)).sum
    rw [foldl_add_map_sum, zero_add]
  · obtain ⟨x, xt, rfl⟩ : ∃ y ys, xs = y :: ys := by
      cases xs with
      | nil => exact absurd rfl hne
      | cons y ys => exact ⟨y, ys, rfl⟩
    exact ⟨x, xt, rfl, rfl, rfl, rfl, rfl⟩

/-- C7 witness: the summary theorem applied to the day d1 of a concrete
three-interval forecast. -/
theorem forecast_daily_summary_spec_witness :
    sampleSummary.hourly ≠ [] ∧
    sampleSummary.avgTemp * (sampleSummary.hourly.length : ℚ) =
      (sampleSummary.hourly.map (fun it => it.temperature)).sum ∧
    sampleSummary.minTemp ∈
      sampleSummary.hourly.map (fun it => it.temperature) := by
  have hmem : sampleSummary ∈ dailySummaries sampleForecast := by
    have he : dailySummaries sampleForecast =
        [sampleSummary,
         daySummary ("d2",
           [⟨"d2", 15, 14, 70, 1011, 2, 80, "Rain", "light rain", "10d", 2, 0⟩])] := rfl
    rw [he]
    exact List.mem_cons_self _ _
  have h := forecast_daily_summary_spec sampleForecast sampleSummary hmem
  exact ⟨h.1, h.2.2.2.2.2.1, h.2.2.2.1.1⟩
